import Mathlib

/-!
Verification of the Mergington High School activities application.

The backend domain logic lives in `src/app.py`, which is described by the
repository's Copilot instructions (activities stored as a dict keyed by
activity name; signup validation checks activity existence, prior
enrollment, then capacity via `len(participants) < max_participants`).
The frontend logic is `src/static/app.js`.

The activity store is embedded as an association list from activity names
to activity records, with the dict mutations of the Python code expressed
as explicit state passing: each operation takes the store and returns the
new store together with its HTTP-level outcome.
-/

/-- An activity record, as stored in the `activities` dict of `src/app.py`:
description, schedule, a capacity, and the roster of participant emails. -/
structure Activity where
  description : String
  schedule : String
  max_participants : Nat
  participants : List String
deriving Repr, DecidableEq

/-- The in-memory store: a mapping from activity name (unique, case-sensitive
key) to its record, embedded as an association list. -/
abbrev Store := List (String × Activity)

/-- Dict lookup: the record stored under `name`, if any. -/
def lookupActivity : Store → String → Option Activity
  | [], _ => none
  | (k, v) :: rest, name => if k = name then some v else lookupActivity rest name

/-- Dict assignment `activities[name] = a`: replace the record stored under
`name` (the entry `lookupActivity` would return), leaving other keys alone. -/
def updateActivity : Store → String → Activity → Store
  | [], _, _ => []
  | (k, v) :: rest, name, a =>
      if k = name then (k, a) :: rest else (k, v) :: updateActivity rest name a

/-- The error taxonomy of the two mutation endpoints. -/
inductive ApiError where
  | NotFound
  | AlreadyEnrolled
  | CapacityExceeded
  | ParticipantNotFound
deriving Repr, DecidableEq

/-- Modelled from the spec: `src/app.py` itself is not in the sources; the
signup endpoint is reconstructed from the spec's Activity Store contract and
the Copilot instructions in the sources ("checks activity exists, student not
already enrolled"; "Validate `len(participants) < max_participants` before
adding"). Validation order is name-existence first, then duplicate
enrollment, then capacity; on success the email is appended to the
participants list and a confirmation message is returned. -/
def signup (s : Store) (name email : String) : Store × Except ApiError String :=
  match lookupActivity s name with
  | none => (s, Except.error ApiError.NotFound)
  | some a =>
      if email ∈ a.participants then
        (s, Except.error ApiError.AlreadyEnrolled)
      else if a.participants.length < a.max_participants then
        (updateActivity s name { a with participants := a.participants ++ [email] },
          Except.ok ("Signed up " ++ email ++ " for " ++ name))
      else
        (s, Except.error ApiError.CapacityExceeded)

/-- Modelled from the spec: `src/app.py` itself is not in the sources; the
unenroll endpoint (`DELETE /activities/{name}/participants?email=...`, called
by `src/static/app.js`) is reconstructed from the spec's Activity Store
contract: NotFound when the activity name is unknown, ParticipantNotFound
when the email is absent, otherwise the email is removed from the
participants list and a confirmation message is returned. -/
def unenroll (s : Store) (name email : String) : Store × Except ApiError String :=
  match lookupActivity s name with
  | none => (s, Except.error ApiError.NotFound)
  | some a =>
      if email ∈ a.participants then
        (updateActivity s name { a with participants := a.participants.erase email },
          Except.ok ("Removed " ++ email ++ " from " ++ name))
      else
        (s, Except.error ApiError.ParticipantNotFound)

/-- Modelled from the spec: the hardcoded seed data of `src/app.py` is not in
the sources; the spec's scenario section fixes one seeded activity, "Chess
Club" with `max_participants = 12` and an empty roster. -/
def initialStore : Store :=
  [("Chess Club",
    { description := "Learn strategies and compete in chess tournaments"
      schedule := "Fridays, 3:30 PM - 5:00 PM"
      max_participants := 12
      participants := [] })]

/-- The states the store can be in: the seeded initial state, and anything
obtained from a reachable state by a signup or unenroll call (successful or
rejected; rejected calls hand back the store unchanged). -/
inductive Reachable : Store → Prop where
  | init : Reachable initialStore
  | signup_step (s : Store) (name email : String) :
      Reachable s → Reachable (signup s name email).1
  | unenroll_step (s : Store) (name email : String) :
      Reachable s → Reachable (unenroll s name email).1

/-- Invariant: every activity's roster is within its capacity. -/
def CapacityInv (s : Store) : Prop :=
  ∀ p ∈ s, (p.2).participants.length ≤ (p.2).max_participants

/-- Invariant: no activity's roster contains a duplicate email. -/
def NodupInv (s : Store) : Prop :=
  ∀ p ∈ s, (p.2).participants.Nodup

lemma mem_updateActivity {s : Store} {name : String} {a : Activity} :
    ∀ p ∈ updateActivity s name a, p ∈ s ∨ p.2 = a := by
  induction s with
  | nil => intro p hp; simp [updateActivity] at hp
  | cons hd tl ih =>
      intro p hp
      obtain ⟨k, v⟩ := hd
      by_cases hk : k = name
      · simp [updateActivity, hk] at hp
        rcases hp with h | h
        · right; simp [h]
        · left; simp [h]
      · simp [updateActivity, hk] at hp
        rcases hp with h | h
        · left; simp [h]
        · rcases ih p h with h' | h'
          · left; simp [h']
          · right; exact h'

lemma lookupActivity_mem {s : Store} {name : String} {a : Activity}
    (h : lookupActivity s name = some a) : ∃ p ∈ s, p.2 = a := by
  induction s with
  | nil => simp [lookupActivity] at h
  | cons hd tl ih =>
      obtain ⟨k, v⟩ := hd
      by_cases hk : k = name
      · simp [lookupActivity, hk] at h
        exact ⟨(k, v), by simp, by simp [h]⟩
      · simp [lookupActivity, hk] at h
        obtain ⟨p, hp, hpa⟩ := ih h
        exact ⟨p, by simp [hp], hpa⟩

lemma signup_preserves_CapacityInv {s : Store} (name email : String)
    (h : CapacityInv s) : CapacityInv (signup s name email).1 := by
  unfold signup
  rcases hl : lookupActivity s name with _ | a
  · simpa using h
  · by_cases he : email ∈ a.participants
    · simpa [he] using h
    · by_cases hc : a.participants.length < a.max_participants
      · simp only [he, if_false, hc, if_true]
        intro p hp
        rcases mem_updateActivity p hp with h' | h'
        · exact h p h'
        · simp [h']; omega
      · simpa [he, hc] using h

lemma signup_preserves_NodupInv {s : Store} (name email : String)
    (h : NodupInv s) : NodupInv (signup s name email).1 := by
  unfold signup
  rcases hl : lookupActivity s name with _ | a
  · simpa using h
  · by_cases he : email ∈ a.participants
    · simpa [he] using h
    · by_cases hc : a.participants.length < a.max_participants
      · simp only [he, if_false, hc, if_true]
        intro p hp
        rcases mem_updateActivity p hp with h' | h'
        · exact h p h'
        · obtain ⟨q, hq, hqa⟩ := lookupActivity_mem hl
          have hnd : a.participants.Nodup := hqa ▸ h q hq
          simp [h', List.nodup_append, hnd, he]
      · simpa [he, hc] using h

lemma unenroll_preserves_CapacityInv {s : Store} (name email : String)
    (h : CapacityInv s) : CapacityInv (unenroll s name email).1 := by
  unfold unenroll
  rcases hl : lookupActivity s name with _ | a
  · simpa using h
  · by_cases he : email ∈ a.participants
    · simp only [he, if_true]
      intro p hp
      rcases mem_updateActivity p hp with h' | h'
      · exact h p h'
      · obtain ⟨q, hq, hqa⟩ := lookupActivity_mem hl
        have hcap : a.participants.length ≤ a.max_participants := hqa ▸ h q hq
        have := List.length_erase_le email a.participants
        simp only [h']
        omega
    · simpa [he] using h

lemma unenroll_preserves_NodupInv {s : Store} (name email : String)
    (h : NodupInv s) : NodupInv (unenroll s name email).1 := by
  unfold unenroll
  rcases hl : lookupActivity s name with _ | a
  · simpa using h
  · by_cases he : email ∈ a.participants
    · simp only [he, if_true]
      intro p hp
      rcases mem_updateActivity p hp with h' | h'
      · exact h p h'
      · obtain ⟨q, hq, hqa⟩ := lookupActivity_mem hl
        have hnd : a.participants.Nodup := hqa ▸ h q hq
        simp only [h']
        exact hnd.erase email
    · simpa [he] using h

/-- C1: at every state reachable from the seeded initial state by signup and
unenroll calls, every activity's participants list has length at most its
`max_participants`. -/
theorem reachable_CapacityInv (s : Store) (h : Reachable s) : CapacityInv s := by
  induction h with
  | init => intro p hp; simp [initialStore] at hp; simp [hp]
  | signup_step s name email _ ih => exact signup_preserves_CapacityInv name email ih
  | unenroll_step s name email _ ih => exact unenroll_preserves_CapacityInv name email ih

/-- Witness for C1: the capacity invariant, evaluated at a concrete reachable
state (the seed after one successful signup). -/
theorem reachable_CapacityInv_witness :
    Reachable (signup initialStore "Chess Club" "a@x.com").1 ∧
      CapacityInv (signup initialStore "Chess Club" "a@x.com").1 :=
  ⟨Reachable.signup_step initialStore "Chess Club" "a@x.com" Reachable.init,
    reachable_CapacityInv (signup initialStore "Chess Club" "a@x.com").1
      (Reachable.signup_step initialStore "Chess Club" "a@x.com" Reachable.init)⟩

/-- C2: at every state reachable from the seeded initial state by signup and
unenroll calls, no activity's participants list contains a duplicate email. -/
theorem reachable_NodupInv (s : Store) (h : Reachable s) : NodupInv s := by
  induction h with
  | init => intro p hp; simp [initialStore] at hp; simp [hp]
  | signup_step s name email _ ih => exact signup_preserves_NodupInv name email ih
  | unenroll_step s name email _ ih => exact unenroll_preserves_NodupInv name email ih

/-- Witness for C2: the no-duplicates invariant, evaluated at a concrete
reachable state (the seed after one successful signup). -/
theorem reachable_NodupInv_witness :
    Reachable (signup initialStore "Chess Club" "a@x.com").1 ∧
      NodupInv (signup initialStore "Chess Club" "a@x.com").1 :=
  ⟨Reachable.signup_step initialStore "Chess Club" "a@x.com" Reachable.init,
    reachable_NodupInv (signup initialStore "Chess Club" "a@x.com").1
      (Reachable.signup_step initialStore "Chess Club" "a@x.com" Reachable.init)⟩

/-- C3: enrolling an email already in the activity's roster fails with
AlreadyEnrolled and the whole store (this activity's roster included) is
returned unchanged. -/
theorem signup_already_enrolled (s : Store) (name email : String) (a : Activity)
    (hl : lookupActivity s name = some a) (he : email ∈ a.participants) :
    signup s name email = (s, Except.error ApiError.AlreadyEnrolled) := by
  simp [signup, hl, he]

/-- Witness for C3: a store whose "Chess Club" roster already holds
"a@x.com"; signing the same email up again is rejected without change. -/
theorem signup_already_enrolled_witness :
    lookupActivity (signup initialStore "Chess Club" "a@x.com").1 "Chess Club" =
        some { description := "Learn strategies and compete in chess tournaments"
               schedule := "Fridays, 3:30 PM - 5:00 PM"
               max_participants := 12
               participants := ["a@x.com"] } ∧
      "a@x.com" ∈ ["a@x.com"] ∧
      signup (signup initialStore "Chess Club" "a@x.com").1 "Chess Club" "a@x.com" =
        ((signup initialStore "Chess Club" "a@x.com").1,
          Except.error ApiError.AlreadyEnrolled) :=
  ⟨by decide, by decide,
    signup_already_enrolled (signup initialStore "Chess Club" "a@x.com").1
      "Chess Club" "a@x.com"
      { description := "Learn strategies and compete in chess tournaments"
        schedule := "Fridays, 3:30 PM - 5:00 PM"
        max_participants := 12
        participants := ["a@x.com"] }
      (by decide) (by decide)⟩

/-- C4: enrolling a fresh email into an activity whose roster already has
length `max_participants` fails with CapacityExceeded and the whole store is
returned unchanged. -/
theorem signup_capacity_exceeded (s : Store) (name email : String) (a : Activity)
    (hl : lookupActivity s name = some a) (he : email ∉ a.participants)
    (hc : a.participants.length = a.max_participants) :
    signup s name email = (s, Except.error ApiError.CapacityExceeded) := by
  have hlt : ¬ a.participants.length < a.max_participants := by omega
  simp [signup, hl, he, hlt]

/-- Witness for C4: a one-slot activity with a full roster rejects a second,
distinct email. -/
theorem signup_capacity_exceeded_witness :
    lookupActivity [("Gym Class",
        { description := "d", schedule := "s", max_participants := 1,
          participants := ["a@x.com"] })] "Gym Class" =
      some { description := "d", schedule := "s", max_participants := 1,
             participants := ["a@x.com"] } ∧
    "b@x.com" ∉ ["a@x.com"] ∧
    signup [("Gym Class",
        { description := "d", schedule := "s", max_participants := 1,
          participants := ["a@x.com"] })] "Gym Class" "b@x.com" =
      ([("Gym Class",
        { description := "d", schedule := "s", max_participants := 1,
          participants := ["a@x.com"] })],
        Except.error ApiError.CapacityExceeded) :=
  ⟨by decide, by decide,
    signup_capacity_exceeded
      [("Gym Class",
        { description := "d", schedule := "s", max_participants := 1,
          participants := ["a@x.com"] })]
      "Gym Class" "b@x.com"
      { description := "d", schedule := "s", max_participants := 1,
        participants := ["a@x.com"] }
      (by decide) (by decide) (by decide)⟩

/-- C5: unenrolling an email absent from an existing activity's roster fails
with ParticipantNotFound and the whole store is returned unchanged. -/
theorem unenroll_participant_not_found (s : Store) (name email : String) (a : Activity)
    (hl : lookupActivity s name = some a) (he : email ∉ a.participants) :
    unenroll s name email = (s, Except.error ApiError.ParticipantNotFound) := by
  simp [unenroll, hl, he]

/-- Witness for C5: removing an email from the seeded empty Chess Club roster
is rejected without change. -/
theorem unenroll_participant_not_found_witness :
    lookupActivity initialStore "Chess Club" =
      some { description := "Learn strategies and compete in chess tournaments"
             schedule := "Fridays, 3:30 PM - 5:00 PM"
             max_participants := 12
             participants := [] } ∧
    "a@x.com" ∉ ([] : List String) ∧
    unenroll initialStore "Chess Club" "a@x.com" =
      (initialStore, Except.error ApiError.ParticipantNotFound) :=
  ⟨by decide, by decide,
    unenroll_participant_not_found initialStore "Chess Club" "a@x.com"
      { description := "Learn strategies and compete in chess tournaments"
        schedule := "Fridays, 3:30 PM - 5:00 PM"
        max_participants := 12
        participants := [] }
      (by decide) (by decide)⟩

/-- C7: in both mutation endpoints, name existence is checked first: when the
activity name is not a key of the store, the call fails with NotFound,
whatever the email argument, and the store is returned unchanged. -/
theorem unknown_activity_not_found (s : Store) (name email : String)
    (h : lookupActivity s name = none) :
    signup s name email = (s, Except.error ApiError.NotFound) ∧
      unenroll s name email = (s, Except.error ApiError.NotFound) := by
  constructor
  · simp [signup, h]
  · simp [unenroll, h]

/-- Witness for C7: the spec's scenario, signup and unenroll against
"Nonexistent" on the seeded store. -/
theorem unknown_activity_not_found_witness :
    lookupActivity initialStore "Nonexistent" = none ∧
      (signup initialStore "Nonexistent" "a@x.com" =
          (initialStore, Except.error ApiError.NotFound) ∧
        unenroll initialStore "Nonexistent" "a@x.com" =
          (initialStore, Except.error ApiError.NotFound)) :=
  ⟨by decide, unknown_activity_not_found initialStore "Nonexistent" "a@x.com" (by decide)⟩

lemma lookupActivity_updateActivity_self {s : Store} {name : String} {a : Activity}
    (b : Activity) (h : lookupActivity s name = some a) :
    lookupActivity (updateActivity s name b) name = some b := by
  induction s with
  | nil => simp [lookupActivity] at h
  | cons hd tl ih =>
      obtain ⟨k, v⟩ := hd
      by_cases hk : k = name
      · simp [lookupActivity, updateActivity, hk]
      · simp only [lookupActivity, hk, if_false] at h
        simp [lookupActivity, updateActivity, hk, ih h]

lemma updateActivity_updateActivity (s : Store) (name : String) (a b : Activity) :
    updateActivity (updateActivity s name a) name b = updateActivity s name b := by
  induction s with
  | nil => simp [updateActivity]
  | cons hd tl ih =>
      obtain ⟨k, v⟩ := hd
      by_cases hk : k = name
      · simp [updateActivity, hk]
      · simp [updateActivity, hk, ih]

lemma updateActivity_lookup_self {s : Store} {name : String} {a : Activity}
    (h : lookupActivity s name = some a) : updateActivity s name a = s := by
  induction s with
  | nil => simp [updateActivity]
  | cons hd tl ih =>
      obtain ⟨k, v⟩ := hd
      by_cases hk : k = name
      · simp only [lookupActivity, hk, if_true, Option.some.injEq] at h
        simp [updateActivity, hk, h]
      · simp only [lookupActivity, hk, if_false] at h
        simp [updateActivity, hk, ih h]

/-- C6: on an existing activity with spare capacity, signing up an email not
yet enrolled and then unenrolling the same email returns the store - and in
particular that activity's participant list - to exactly its value before the
signup. -/
theorem signup_unenroll_roundtrip (s : Store) (name email : String) (a : Activity)
    (hl : lookupActivity s name = some a) (he : email ∉ a.participants)
    (hc : a.participants.length < a.max_participants) :
    (unenroll (signup s name email).1 name email).1 = s := by
  have hs1 : (signup s name email).1 =
      updateActivity s name { a with participants := a.participants ++ [email] } := by
    simp [signup, hl, he, hc]
  have hl1 : lookupActivity (signup s name email).1 name =
      some { a with participants := a.participants ++ [email] } := by
    rw [hs1]; exact lookupActivity_updateActivity_self _ hl
  have hmem : email ∈ ({ a with participants := a.participants ++ [email]} : Activity).participants := by
    simp
  have herase : (a.participants ++ [email]).erase email = a.participants := by
    rw [List.erase_append_right _ he]; simp
  have hact : ({ a with participants := (a.participants ++ [email]).erase email } : Activity) = a := by
    rw [herase]
  rw [unenroll, hl1]
  simp only [hmem, if_true]
  rw [hs1, updateActivity_updateActivity]
  rw [hact, updateActivity_lookup_self hl]

/-- Witness for C6: signup then unenroll of "a@x.com" on the seeded Chess
Club restores the seeded store. -/
theorem signup_unenroll_roundtrip_witness :
    lookupActivity initialStore "Chess Club" =
      some { description := "Learn strategies and compete in chess tournaments"
             schedule := "Fridays, 3:30 PM - 5:00 PM"
             max_participants := 12
             participants := [] } ∧
    "a@x.com" ∉ ([] : List String) ∧
    (0 : Nat) < 12 ∧
    (unenroll (signup initialStore "Chess Club" "a@x.com").1 "Chess Club" "a@x.com").1 =
      initialStore :=
  ⟨by decide, by decide, by decide,
    signup_unenroll_roundtrip initialStore "Chess Club" "a@x.com"
      { description := "Learn strategies and compete in chess tournaments"
        schedule := "Fridays, 3:30 PM - 5:00 PM"
        max_participants := 12
        participants := [] }
      (by decide) (by decide) (by decide)⟩

/-! Frontend (`src/static/app.js`). -/

/-- One activity card as built by `fetchActivities` in `src/static/app.js`:
the heading, the derived spots-left figure
(`details.max_participants - details.participants.length`), and the
participant emails in the order they are appended to the list element. -/
structure ActivityCard where
  title : String
  spotsLeft : Int
  participantsShown : List String
deriving Repr, DecidableEq

/-- The per-activity body of `fetchActivities` (app.js lines 20-84), with the
snapshot's `details` record threaded through explicitly: `spotsLeft` is
computed from the snapshot, and the displayed roster is
`[...details.participants].sort()` - the spread copies the array and the sort
runs on the copy, so the record handed back is the one received. -/
def renderActivity (name : String) (details : Activity) : Activity × ActivityCard :=
  let spotsLeft : Int := (details.max_participants : Int) - (details.participants.length : Int)
  let sortedParticipants := List.insertionSort (fun x y => x ≤ y) details.participants
  (details, { title := name, spotsLeft := spotsLeft, participantsShown := sortedParticipants })

/-- `fetchActivities` over the whole snapshot: render each entry in order,
handing back the snapshot as left by the rendering pass. -/
def renderSnapshot : Store → Store × List ActivityCard
  | [] => ([], [])
  | (name, details) :: rest =>
      let r := renderActivity name details
      let rest2 := renderSnapshot rest
      ((name, r.1) :: rest2.1, r.2 :: rest2.2)

/-- C8: rendering a snapshot leaves the snapshot (and so the stored order)
unchanged, and for each activity the card shows
`max_participants - participants.length` spots left and the participants as a
lexicographically sorted rearrangement of the snapshot's roster. -/
theorem fetchActivities_sorted_display (snapshot : Store) :
    (renderSnapshot snapshot).1 = snapshot ∧
      ∀ name details, (name, details) ∈ snapshot →
        (renderActivity name details).1 = details ∧
          (renderActivity name details).2.spotsLeft =
            (details.max_participants : Int) - (details.participants.length : Int) ∧
          List.Sorted (fun x y => x ≤ y) (renderActivity name details).2.participantsShown ∧
          (renderActivity name details).2.participantsShown.Perm details.participants := by
  constructor
  · induction snapshot with
    | nil => rfl
    | cons hd tl ih =>
        obtain ⟨name, details⟩ := hd
        simp [renderSnapshot, renderActivity, ih]
  · intro name details _
    refine ⟨rfl, rfl, ?_, ?_⟩
    · exact List.sorted_insertionSort _ _
    · exact List.perm_insertionSort _ _

/-- Witness for C8: a snapshot whose stored roster is out of order renders
sorted while the snapshot keeps its stored order. -/
theorem fetchActivities_sorted_display_witness :
    (("Art", { description := "d", schedule := "s", max_participants := 3,
               participants := ["b@x.com", "a@x.com"] }) ∈
        ([("Art", { description := "d", schedule := "s", max_participants := 3,
                    participants := ["b@x.com", "a@x.com"] })] : Store)) ∧
      List.Sorted (fun x y => x ≤ y)
        (renderActivity "Art"
          { description := "d", schedule := "s", max_participants := 3,
            participants := ["b@x.com", "a@x.com"] }).2.participantsShown ∧
      (renderSnapshot
          [("Art", { description := "d", schedule := "s", max_participants := 3,
                     participants := ["b@x.com", "a@x.com"] })]).1 =
        [("Art", { description := "d", schedule := "s", max_participants := 3,
                   participants := ["b@x.com", "a@x.com"] })] :=
  ⟨by decide,
    ((fetchActivities_sorted_display
        [("Art", { description := "d", schedule := "s", max_participants := 3,
                   participants := ["b@x.com", "a@x.com"] })]).2 "Art"
      { description := "d", schedule := "s", max_participants := 3,
        participants := ["b@x.com", "a@x.com"] } (by decide)).2.2.1,
    (fetchActivities_sorted_display
        [("Art", { description := "d", schedule := "s", max_participants := 3,
                   participants := ["b@x.com", "a@x.com"] })]).1⟩

/-- The fields of the parsed signup response that the submit handler in
`src/static/app.js` reads: `response.ok`, `result.message` (success body),
`result.detail` (error body, possibly absent). -/
structure SignupResponse where
  ok : Bool
  message : String
  detail : Option String
deriving Repr, DecidableEq

/-- The user-visible effect of one run of the submit handler: the notice text
and class, whether `signupForm.reset()` ran, whether `fetchActivities()` was
called again. -/
structure ClientEffect where
  messageText : String
  messageClass : String
  formReset : Bool
  refreshed : Bool
deriving Repr, DecidableEq

/-- The JavaScript fallback `result.detail || "An error occurred"`: the
fallback is used when `detail` is absent - and also when it is the empty
string, since `""` is falsy. -/
def jsOrElse (detail : Option String) (fallback : String) : String :=
  match detail with
  | none => fallback
  | some d => if d = "" then fallback else d

/-- The branch on `response.ok` in the submit handler (app.js lines 108-116):
on ok, show `result.message` as a success notice, reset the form and refresh;
otherwise show `result.detail` (with the generic fallback) as an error notice,
with no reset and no refresh. -/
def submitSignupEffect (resp : SignupResponse) : ClientEffect :=
  if resp.ok then
    { messageText := resp.message, messageClass := "success",
      formReset := true, refreshed := true }
  else
    { messageText := jsOrElse resp.detail "An error occurred",
      messageClass := "error", formReset := false, refreshed := false }

/-- C9: on a non-success response the handler shows the server-provided
detail (or the generic fallback when detail is absent) and neither resets the
form nor refreshes; a reset or a refresh happens only on a success response,
where both happen. -/
theorem submitSignup_failure_shows_detail (resp : SignupResponse) :
    (resp.ok = false →
      (submitSignupEffect resp).refreshed = false ∧
        (submitSignupEffect resp).formReset = false ∧
        (submitSignupEffect resp).messageClass = "error" ∧
        (∀ d : String, resp.detail = some d → d ≠ "" →
          (submitSignupEffect resp).messageText = d) ∧
        (resp.detail = none →
          (submitSignupEffect resp).messageText = "An error occurred")) ∧
    ((submitSignupEffect resp).formReset = true ∨
        (submitSignupEffect resp).refreshed = true → resp.ok = true) ∧
    (resp.ok = true →
      (submitSignupEffect resp).formReset = true ∧
        (submitSignupEffect resp).refreshed = true) := by
  rcases resp with ⟨ok, message, detail⟩
  cases ok
  · refine ⟨fun _ => ⟨rfl, rfl, rfl, ?_, ?_⟩, ?_, by intro h; simp at h⟩
    · intro d hd hne
      have hd2 : detail = some d := hd
      subst hd2
      simp [submitSignupEffect, jsOrElse, hne]
    · intro hd
      have hd2 : detail = none := hd
      subst hd2
      rfl
    · intro h
      rcases h with h | h <;> simp [submitSignupEffect] at h
  · exact ⟨fun h => by simp at h, fun _ => rfl, fun _ => ⟨rfl, rfl⟩⟩

/-- Witness for C9: a rejected signup with detail "Already signed up" shows
that detail and does not refresh; an accepted signup resets and refreshes. -/
theorem submitSignup_failure_shows_detail_witness :
    (submitSignupEffect ⟨false, "", some "Already signed up"⟩).refreshed = false ∧
      (submitSignupEffect ⟨false, "", some "Already signed up"⟩).messageText =
        "Already signed up" ∧
      (submitSignupEffect ⟨true, "Signed up", none⟩).formReset = true ∧
      (submitSignupEffect ⟨true, "Signed up", none⟩).refreshed = true :=
  ⟨((submitSignup_failure_shows_detail ⟨false, "", some "Already signed up"⟩).1 rfl).1,
    (((submitSignup_failure_shows_detail ⟨false, "", some "Already signed up"⟩).1
        rfl).2.2.2.1) "Already signed up" rfl (by decide),
    ((submitSignup_failure_shows_detail ⟨true, "Signed up", none⟩).2.2 rfl).1,
    ((submitSignup_failure_shows_detail ⟨true, "Signed up", none⟩).2.2 rfl).2⟩

/-- The visibility state of the `message` element together with the expiry
times (in ms) of every `setTimeout(... classList.add("hidden"), 5000)`
callback still scheduled. `src/static/app.js` stores no timer id and never
calls `clearTimeout`, so scheduled callbacks only leave this list by
firing. -/
structure NoticeState where
  hidden : Bool
  pending : List Nat
deriving Repr, DecidableEq

/-- The events that touch the notice element: a notice shown at time `t`
(the handler removes "hidden" and schedules a hide at `t + 5000`, app.js
lines 118-123 and 164-165), and a scheduled hide callback firing at its
expiry time `t`. -/
inductive UiEvent where
  | show (t : Nat)
  | timerFire (t : Nat)
deriving Repr, DecidableEq

/-- One event against the notice element, as `src/static/app.js` handles it:
showing a notice unhides the element and appends a fresh 5-second timer
without cancelling any pending one; a firing callback adds "hidden"
unconditionally. -/
def stepNotice : NoticeState → UiEvent → NoticeState
  | st, UiEvent.show t => { hidden := false, pending := st.pending ++ [t + 5000] }
  | st, UiEvent.timerFire t =>
      if t ∈ st.pending then { hidden := true, pending := st.pending.erase t }
      else st

/-- A sequence of notice events processed in order. -/
def runNotice (st : NoticeState) (evs : List UiEvent) : NoticeState :=
  evs.foldl stepNotice st

/-- C10 (code evidence): notices shown at t = 0 and t = 1000 leave two
pending timers; the first notice's timer is still pending after the second
notice is shown, and its firing at t = 5000 hides the element - 1000 ms
before the second notice's own 5-second interval ends at t = 6000, with the
second notice's timer still pending. -/
theorem notice_timer_not_cancelled :
    (runNotice { hidden := true, pending := [] }
        [UiEvent.show 0, UiEvent.show 1000]).pending = [5000, 6000] ∧
      (runNotice { hidden := true, pending := [] }
          [UiEvent.show 0, UiEvent.show 1000, UiEvent.timerFire 5000]) =
        { hidden := true, pending := [6000] } ∧
      5000 < 1000 + 5000 := by
  refine ⟨rfl, rfl, by decide⟩
